import Mathlib

/-!
# Verification of the client-support chat interface core

Shallow embedding of the chat session store (`useChat`), the query client
(`sendQueryToAPI`) and the send-message orchestration (`App.sendMessage`)
of the client-support UI, together with proofs of the specified properties.

Modelling conventions:
* Instants (`Date` values) are modelled as natural numbers counting
  milliseconds since the epoch, the resolution at which JS `Date` stores
  time.  `Date.now()` readings are passed in as explicit `now` parameters.
* JavaScript's `||`-defaulting is modelled faithfully: a present but falsy
  value (empty string, zero number, `null`) selects the default, and a
  present array is always truthy.
* The outcome of the single `fetch` call is passed to `sendQueryToAPI` as
  an explicit `HttpResponse` value; a body that fails JSON parsing is an
  `Except.error` payload, matching `response.json()` rejecting.
-/

namespace ClientSupport

/-! ## Data model (`types.ts`, spec §3) -/

/-- Message role: `'user' | 'assistant'`. -/
inductive Role where
  | user
  | assistant
deriving DecidableEq, Repr

/-- A chat message.  Optional metadata (`intent?`, `confidence?`, `sources?`)
is only present on assistant messages; `timestamp` is an instant in ms. -/
structure Message where
  id : String
  role : Role
  content : String
  intent : Option String := none
  confidence : Option Int := none
  sources : Option (List String) := none
  timestamp : Nat
deriving DecidableEq, Repr

/-- One persisted conversation. -/
structure ChatHistory where
  id : String
  title : String
  messages : List Message
  lastUpdated : Nat
deriving DecidableEq, Repr

/-- The session-store state owned by the `useChat` hook: the persisted
histories, the active-chat reference and the transient message buffer. -/
structure ChatState where
  chatHistories : List ChatHistory
  currentChatId : Option String
  messages : List Message
deriving DecidableEq, Repr

/-! ## Session store operations (`hooks/useChat.ts`) -/

/-- Operation `startNewChat`: clears the transient buffer and the active-chat
reference; persisted histories untouched. -/
def startNewChat (s : ChatState) : ChatState :=
  { s with messages := [], currentChatId := none }

/-- Operation `loadChat(chatId)`: if a history with that id exists, its messages
become the buffer (the source re-wraps each timestamp in `new Date`,
the identity on the stored instant) and it becomes active; otherwise
nothing happens. -/
def loadChat (s : ChatState) (chatId : String) : ChatState :=
  match s.chatHistories.find? (fun c => c.id == chatId) with
  | some chat => { s with messages := chat.messages, currentChatId := some chatId }
  | none => s

/-- Operation `deleteChat(chatId)`: filters the history with that id out of the
collection and, when it was the active chat, behaves as `startNewChat`. -/
def deleteChat (s : ChatState) (chatId : String) : ChatState :=
  let s1 := { s with chatHistories := s.chatHistories.filter (fun c => c.id != chatId) }
  if s.currentChatId = some chatId then startNewChat s1 else s1

/-- Operation `clearHistory`: removes all histories and resets to the new-chat state. -/
def clearHistory (_s : ChatState) : ChatState :=
  { chatHistories := [], currentChatId := none, messages := [] }

/-- Operation `addMessage(message)`: appends to the transient buffer only. -/
def addMessage (s : ChatState) (message : Message) : ChatState :=
  { s with messages := s.messages ++ [message] }

/-- Operation `updateChatHistory(userMessage, assistantMessage)`: the commit of one
completed exchange.  `newMessages` is the buffer as captured when the hook
rendered (`[...messages, userMessage, assistantMessage]`).  With an active
chat the targeted entry's messages and `lastUpdated` are replaced; with no
active chat a new history is consed at the front (id `Date.now().toString()`,
title the first 50 characters of the user message) and becomes active.
The operation itself never calls `setMessages`. -/
def updateChatHistory (s : ChatState) (userMessage assistantMessage : Message)
    (now : Nat) : ChatState :=
  let newMessages := s.messages ++ [userMessage, assistantMessage]
  match s.currentChatId with
  | some cid =>
      { s with chatHistories :=
          s.chatHistories.map (fun chat =>
            if chat.id = cid then
              { chat with messages := newMessages, lastUpdated := now }
            else chat) }
  | none =>
      let newChat : ChatHistory :=
        { id := toString now
          title := userMessage.content.take 50
          messages := newMessages
          lastUpdated := now }
      { s with chatHistories := newChat :: s.chatHistories,
               currentChatId := some newChat.id }

/-- The state delivered by the `useChat` initializer: histories restored
from storage, no active chat, empty buffer. -/
def initialChatState (hs : List ChatHistory) : ChatState :=
  { chatHistories := hs, currentChatId := none, messages := [] }

/-! ## Query client (`lib/api.ts`) -/

/-- The normalized response delivered to the caller on success. -/
structure ApiResponse where
  intent : String
  confidence : Int
  response : String
  sources : List String
  action_invoked : Option String
  timestamp : String
deriving DecidableEq, Repr

/-- The raw JSON body as the code reads it: every field the code touches,
each possibly absent.  `action_invoked` distinguishes absent (`none`) from
an explicit JSON `null` (`some none`).  Numbers are modelled as integers
(the claims only involve integral confidences). -/
structure RawBody where
  detail : Option String := none
  intent : Option String := none
  confidence : Option Int := none
  response : Option String := none
  sources : Option (List String) := none
  action_invoked : Option (Option String) := none
  timestamp : Option String := none
deriving DecidableEq, Repr

/-- The JS idiom `a || d` for a possibly-absent string: the default is taken when the
field is absent or the empty string (falsy). -/
def jsOrStr (v : Option String) (d : String) : String :=
  match v with
  | none => d
  | some s => if s = "" then d else s

/-- The JS idiom `a || d` for a possibly-absent number: the default is taken when the
field is absent or `0` (falsy). -/
def jsOrInt (v : Option Int) (d : Int) : Int :=
  match v with
  | none => d
  | some n => if n = 0 then d else n

/-- The JS idiom `a || d` for a possibly-absent array: any present array, even empty,
is truthy. -/
def jsOrList (v : Option (List String)) (d : List String) : List String :=
  v.getD d

/-- The JS idiom `a || null` for a possibly-absent, nullable string field. -/
def jsOrNull (v : Option (Option String)) : Option String :=
  match v with
  | none => none
  | some none => none
  | some (some s) => if s = "" then none else some s

/-- The settled HTTP response seen by `sendQueryToAPI`: the `ok`/`status`
pair of the `fetch` result and the outcome of `response.json()`
(`Except.error` when the body is not valid JSON). -/
structure HttpResponse where
  ok : Bool
  status : Nat
  jsonBody : Except Unit RawBody
deriving Repr

/-- Function `sendQueryToAPI`: on a non-ok status throws
`Error(errorData.detail || "API request failed: <status>")`, where a body
that fails to parse is replaced by `{}` (`.catch(() => ({}))`); on an ok
status with a parseable body returns the `||`-normalized response; an
unparseable ok body rejects (`await response.json()` throws, re-thrown). -/
def sendQueryToAPI (resp : HttpResponse) (nowIso : String) : Except String ApiResponse :=
  if !resp.ok then
    let errorData : RawBody := match resp.jsonBody with
      | .ok b => b
      | .error _ => {}
    .error (jsOrStr errorData.detail ("API request failed: " ++ toString resp.status))
  else
    match resp.jsonBody with
    | .error _ => .error "Unexpected end of JSON input"
    | .ok data =>
        .ok { intent := jsOrStr data.intent "general_query"
              confidence := jsOrInt data.confidence 0
              response := jsOrStr data.response "Sorry, I could not process your request."
              sources := jsOrList data.sources []
              action_invoked := jsOrNull data.action_invoked
              timestamp := jsOrStr data.timestamp nowIso }

/-! ## Send-message orchestration (`App.tsx`) -/

/-- A whitespace character as JS `String.prototype.trim` strips it (the
claims only exercise the ASCII range). -/
def isWsChar (c : Char) : Bool :=
  c = ' ' ∨ c = '\t' ∨ c = '\n' ∨ c = '\r'

/-- The JS call `inputValue.trim()`: strip leading and trailing whitespace. -/
def jsTrim (s : String) : String :=
  String.mk ((((s.data.dropWhile isWsChar).reverse).dropWhile isWsChar).reverse)

/-- The `App` state relevant to the orchestration: the input field, the
in-flight busy flag, the toast notice and the session-store state. -/
structure AppState where
  inputValue : String
  isLoading : Bool
  showToast : Option String
  chat : ChatState
deriving DecidableEq, Repr

/-- Function `sendMessage`: guard (`!inputValue.trim() || isLoading`), optimistic
`addMessage` of the user message (id `Date.now().toString()`), then either
commit of the exchange or rollback.  The settled outcome of the awaited
query-client call is the `apiResult` parameter.  `updateChatHistory` runs
against the buffer captured when `sendMessage` was created (before the two
`addMessage` functional updates), exactly as the hook's closure does; it
only updates the histories and active-chat reference.  On failure the user
message is removed by filtering the buffer on its id. -/
def sendMessage (s : AppState) (apiResult : Except String ApiResponse)
    (now : Nat) : AppState :=
  if jsTrim s.inputValue = "" ∨ s.isLoading = true then s
  else
    let userMessage : Message :=
      { id := toString now, role := .user, content := s.inputValue, timestamp := now }
    let s1 : AppState :=
      { s with chat := addMessage s.chat userMessage, inputValue := "", isLoading := true }
    match apiResult with
    | .ok data =>
        let assistantMessage : Message :=
          { id := toString (now + 1)
            role := .assistant
            content := data.response
            intent := some data.intent
            confidence := some data.confidence
            sources := some data.sources
            timestamp := now }
        let s2 := { s1 with chat := addMessage s1.chat assistantMessage }
        let committed := updateChatHistory s.chat userMessage assistantMessage now
        { s2 with
            chat := { s2.chat with
                        chatHistories := committed.chatHistories,
                        currentChatId := committed.currentChatId },
            isLoading := false }
    | .error _ =>
        { s1 with
            showToast := some "Failed to get response. Please check your connection.",
            chat := { s1.chat with
                        messages := s1.chat.messages.filter (fun m => m.id != userMessage.id) },
            isLoading := false }

/-! ## Persistence layer (`useChat` storage initializer and effect)

JS values that can sit in the `chatHistories` slot are modelled by `JsVal`;
a live `Date` is the `date` constructor, carrying its ms timestamp.
`JSON.stringify` factors as a structural lowering (each `Date` is replaced
by its serialized-instant string via `toJSON`) followed by the platform's
bijective printing of date-free values; `JSON.parse(s, reviver)` factors as
the platform's inverse parse followed by the hook's reviver, which rebuilds
a `Date` under the keys `timestamp` and `lastUpdated`.

The serialized form of an instant is modelled as the canonical decimal
numeral of its ms count.  The source uses the ISO-8601 form produced by
`Date.prototype.toISOString`; like the decimal numeral it is an injective
encoding of the ms timestamp that `new Date(string)` inverts exactly, which
is the only property the round-trip depends on. -/

/-- The decimal digit `d` (`d < 10`) as a character. -/
def digitChar (d : Nat) : Char :=
  match d with
  | 0 => '0' | 1 => '1' | 2 => '2' | 3 => '3' | 4 => '4'
  | 5 => '5' | 6 => '6' | 7 => '7' | 8 => '8' | _ => '9'

/-- Numeric value of a decimal digit character. -/
def charVal (c : Char) : Nat := c.toNat - 48

/-- Decimal numeral of `n`, most significant digit first. -/
def natToChars (n : Nat) : List Char :=
  if _h : n < 10 then [digitChar n]
  else natToChars (n / 10) ++ [digitChar (n % 10)]
decreasing_by exact Nat.div_lt_self (by omega) (by omega)

/-- Read a decimal numeral. -/
def charsToNat (cs : List Char) : Nat :=
  cs.foldl (fun acc c => acc * 10 + charVal c) 0

/-- Serialized form of an instant (see section header). -/
def msToIso (ms : Nat) : String := String.mk (natToChars ms)

/-- Reading `new Date(s)` of a serialized instant: recover the ms timestamp. -/
def isoToMs (s : String) : Nat := charsToNat s.data

/-- A JavaScript value as stored in the `chatHistories` state slot. -/
inductive JsVal where
  | null
  | bool (b : Bool)
  | num (n : Int)
  | str (s : String)
  | arr (elems : List JsVal)
  | obj (fields : List (String × JsVal))
  | date (ms : Nat)
deriving Repr

mutual

/-- The structural part of `JSON.stringify`: every `Date` is replaced by its
serialized-instant string (its `toJSON`); everything else keeps its shape. -/
def lower : JsVal → JsVal
  | .date ms => .str (msToIso ms)
  | .arr l => .arr (lowerList l)
  | .obj fs => .obj (lowerFields fs)
  | .null => .null
  | .bool b => .bool b
  | .num n => .num n
  | .str s => .str s

def lowerList : List JsVal → List JsVal
  | [] => []
  | v :: vs => lower v :: lowerList vs

def lowerFields : List (String × JsVal) → List (String × JsVal)
  | [] => []
  | (k, v) :: fs => (k, lower v) :: lowerFields fs

end

/-- The call `new Date(value)` as the reviver applies it: a string is parsed back to
its ms timestamp, a number is taken as a ms timestamp; any other argument
gives an invalid `Date`, collapsed here to the epoch (never reached on
well-formed stores). -/
def jsNewDate (v : JsVal) : JsVal :=
  match v with
  | .str s => .date (isoToMs s)
  | .num n => .date n.toNat
  | _ => .date 0

/-- The hook's reviver callback: under the keys `timestamp` and
`lastUpdated` the value becomes `new Date(value)`; other keys pass
through. -/
def reviveKey (k : String) (v : JsVal) : JsVal :=
  if k = "timestamp" ∨ k = "lastUpdated" then jsNewDate v else v

mutual

/-- The bottom-up application by `JSON.parse` of the reviver to a parsed value. -/
def revive : JsVal → JsVal
  | .arr l => .arr (reviveList l)
  | .obj fs => .obj (reviveFields fs)
  | .null => .null
  | .bool b => .bool b
  | .num n => .num n
  | .str s => .str s
  | .date ms => .date ms

def reviveList : List JsVal → List JsVal
  | [] => []
  | v :: vs => revive v :: reviveList vs

def reviveFields : List (String × JsVal) → List (String × JsVal)
  | [] => []
  | (k, v) :: fs => (k, reviveKey k (revive v)) :: reviveFields fs

end

/-! ## JSON text parsing (`JSON.parse`)

A recursive-descent JSON parser over the character list, with a fuel bound
on nesting (any fuel at least the input length succeeds on inputs the
platform accepts; the claims only ever evaluate it on concrete inputs).
Number values are represented by their integer part; the optional fraction
and exponent are consumed syntactically (no claim involves non-integral
numbers).  A `\u` escape outside the valid scalar range collapses to
`'\0'`, as `Char.ofNat` does. -/

/-- Drop JSON whitespace. -/
def skipWs : List Char → List Char
  | [] => []
  | c :: cs => if c = ' ' ∨ c = '\n' ∨ c = '\t' ∨ c = '\r' then skipWs cs else c :: cs

/-- Value of a hexadecimal digit character. -/
def hexVal (c : Char) : Option Nat :=
  if '0' ≤ c ∧ c ≤ '9' then some (c.toNat - 48)
  else if 'a' ≤ c ∧ c ≤ 'f' then some (c.toNat - 87)
  else if 'A' ≤ c ∧ c ≤ 'F' then some (c.toNat - 55)
  else none

/-- Parse the body of a JSON string literal (after the opening quote),
returning its characters and the input after the closing quote. -/
def parseStringBody : List Char → Option (List Char × List Char)
  | [] => none
  | '"' :: rest => some ([], rest)
  | '\\' :: 'u' :: a :: b :: c :: d :: rest => do
      let ha ← hexVal a
      let hb ← hexVal b
      let hc ← hexVal c
      let hd ← hexVal d
      let (s, t) ← parseStringBody rest
      some (Char.ofNat (((ha * 16 + hb) * 16 + hc) * 16 + hd) :: s, t)
  | '\\' :: e :: rest => do
      let c ← match e with
        | '"' => some '"'
        | '\\' => some '\\'
        | '/' => some '/'
        | 'b' => some (Char.ofNat 8)
        | 'f' => some (Char.ofNat 12)
        | 'n' => some '\n'
        | 'r' => some '\r'
        | 't' => some '\t'
        | _ => none
      let (s, t) ← parseStringBody rest
      some (c :: s, t)
  | c :: rest => do
      let (s, t) ← parseStringBody rest
      some (c :: s, t)

/-- Drop leading decimal digits. -/
def skipDigits (cs : List Char) : List Char := cs.dropWhile Char.isDigit

/-- Consume an optional JSON fraction part. -/
def skipFrac : List Char → Option (List Char)
  | '.' :: t => if (t.takeWhile Char.isDigit).isEmpty then none else some (skipDigits t)
  | cs => some cs

/-- Consume the sign and digits of an exponent. -/
def skipExpTail (t : List Char) : Option (List Char) :=
  let t1 := match t with
    | '+' :: r => r
    | '-' :: r => r
    | r => r
  if (t1.takeWhile Char.isDigit).isEmpty then none else some (skipDigits t1)

/-- Consume an optional JSON exponent part. -/
def skipExp : List Char → Option (List Char)
  | 'e' :: t => skipExpTail t
  | 'E' :: t => skipExpTail t
  | cs => some cs

/-- Parse a JSON number (value: its integer part). -/
def parseNumber (cs : List Char) : Option (JsVal × List Char) :=
  let signed := match cs with
    | '-' :: t => (true, t)
    | t => (false, t)
  let digits := (signed.2).takeWhile Char.isDigit
  if digits.isEmpty then none
  else do
    let rest1 ← skipFrac (skipDigits signed.2)
    let rest2 ← skipExp rest1
    let n : Int := charsToNat digits
    some (.num (if signed.1 then -n else n), rest2)

mutual

/-- Parse one JSON value. -/
def parseVal : Nat → List Char → Option (JsVal × List Char)
  | 0, _ => none
  | fuel + 1, cs =>
    match skipWs cs with
    | 'n' :: 'u' :: 'l' :: 'l' :: rest => some (.null, rest)
    | 't' :: 'r' :: 'u' :: 'e' :: rest => some (.bool true, rest)
    | 'f' :: 'a' :: 'l' :: 's' :: 'e' :: rest => some (.bool false, rest)
    | '"' :: rest => do
        let (s, t) ← parseStringBody rest
        some (.str (String.mk s), t)
    | '[' :: rest =>
        (match skipWs rest with
         | ']' :: rest2 => some (.arr [], rest2)
         | rest2 => do
             let (l, t) ← parseElems fuel rest2
             some (.arr l, t))
    | '{' :: rest =>
        (match skipWs rest with
         | '}' :: rest2 => some (.obj [], rest2)
         | rest2 => do
             let (l, t) ← parseFields fuel rest2
             some (.obj l, t))
    | other => parseNumber other

/-- Parse the elements of a non-empty JSON array, up to `]`. -/
def parseElems : Nat → List Char → Option (List JsVal × List Char)
  | 0, _ => none
  | fuel + 1, cs => do
    let (v, rest) ← parseVal fuel cs
    match skipWs rest with
    | ',' :: r => do
        let (l, t) ← parseElems fuel r
        some (v :: l, t)
    | ']' :: r => some ([v], r)
    | _ => none

/-- Parse the members of a non-empty JSON object, up to `}`. -/
def parseFields : Nat → List Char → Option (List (String × JsVal) × List Char)
  | 0, _ => none
  | fuel + 1, cs =>
    match skipWs cs with
    | '"' :: r => do
        let (k, r1) ← parseStringBody r
        match skipWs r1 with
        | ':' :: r2 => do
            let (v, r3) ← parseVal fuel r2
            match skipWs r3 with
            | ',' :: r4 => do
                let (l, t) ← parseFields fuel r4
                some ((String.mk k, v) :: l, t)
            | '}' :: r4 => some ([(String.mk k, v)], r4)
            | _ => none
        | _ => none
    | _ => none

end

/-- Function `JSON.parse(s)`: parse one value, requiring only trailing whitespace
after it; `Except.error` models the thrown `SyntaxError`. -/
def jsonParse (s : String) : Except Unit JsVal :=
  match parseVal (2 * s.length + 4) s.data with
  | some (v, rest) => if (skipWs rest).isEmpty then .ok v else .error ()
  | none => .error ()

/-- The `useChat` histories initializer applied to the stored value under
the `chatHistories` key:
`stored ? JSON.parse(stored, reviver) : []`.
A missing key (and the falsy empty string) yields the empty array; any
other stored text is parsed — a parse failure propagates out of the
initializer and fails the render. -/
def initChatHistories (stored : Option String) : Except Unit JsVal :=
  match stored with
  | none => .ok (.arr [])
  | some s => if s = "" then .ok (.arr []) else (jsonParse s).map revive

/-! ## The in-memory JS representation of the histories collection -/

/-- The JS string of a role. -/
def roleToStr : Role → String
  | .user => "user"
  | .assistant => "assistant"

/-- The fields of a `Message` object in insertion order; absent optional
fields produce no member (`JSON.stringify` skips `undefined` members). -/
def msgFields (m : Message) : List (String × JsVal) :=
  [("id", .str m.id), ("role", .str (roleToStr m.role)), ("content", .str m.content)]
    ++ (match m.intent with
        | none => []
        | some i => [("intent", .str i)])
    ++ (match m.confidence with
        | none => []
        | some c => [("confidence", .num c)])
    ++ (match m.sources with
        | none => []
        | some l => [("sources", .arr (l.map .str))])
    ++ [("timestamp", .date m.timestamp)]

/-- A `Message` as a JS object. -/
def msgToJs (m : Message) : JsVal := .obj (msgFields m)

/-- The fields of a `ChatHistory` object in insertion order. -/
def chatFields (c : ChatHistory) : List (String × JsVal) :=
  [("id", .str c.id), ("title", .str c.title),
   ("messages", .arr (c.messages.map msgToJs)),
   ("lastUpdated", .date c.lastUpdated)]

/-- A `ChatHistory` as a JS object. -/
def chatToJs (c : ChatHistory) : JsVal := .obj (chatFields c)

/-- The histories collection as the JS array held in state. -/
def historiesToJs (hs : List ChatHistory) : JsVal := .arr (hs.map chatToJs)

/-! ## The operations driving the session store, for reachability claims -/

/-- One invocation of a session-store operation, with the values the caller
passes (and, for the commit, the clock reading it observes). -/
inductive Op where
  | startNewChat
  | loadChat (chatId : String)
  | deleteChat (chatId : String)
  | clearHistory
  | addMessage (m : Message)
  | updateChatHistory (u a : Message) (now : Nat)
deriving DecidableEq, Repr

/-- Apply one operation to the session-store state. -/
def applyOp (s : ChatState) : Op → ChatState
  | .startNewChat => startNewChat s
  | .loadChat chatId => loadChat s chatId
  | .deleteChat chatId => deleteChat s chatId
  | .clearHistory => clearHistory s
  | .addMessage m => addMessage s m
  | .updateChatHistory u a now => updateChatHistory s u a now

/-- Apply a sequence of operations in order. -/
def applyOps (s : ChatState) (ops : List Op) : ChatState :=
  ops.foldl applyOp s

/-- The active-chat reference, when set, names a history in the
collection. -/
def ActiveRefOk (s : ChatState) : Prop :=
  ∀ c, s.currentChatId = some c → ∃ chat ∈ s.chatHistories, chat.id = c

/-! ## Concrete sample data for witnesses and counterexamples -/

/-- A user message as `sendMessage` builds it at `now = 7`. -/
def sampleUser : Message :=
  { id := "7", role := .user, content := "Hello", timestamp := 7 }

/-- An assistant message as the success path builds it. -/
def sampleAssistant : Message :=
  { id := "8", role := .assistant, content := "Hi there!",
    intent := some "general_query", confidence := some 0, sources := some [],
    timestamp := 7 }

/-- A persisted conversation with id `"A"`. -/
def chatA : ChatHistory :=
  { id := "A", title := "first",
    messages := [{ id := "1", role := .user, content := "first", timestamp := 1 }],
    lastUpdated := 1 }

/-- A persisted conversation with id `"B"`. -/
def chatB : ChatHistory :=
  { id := "B", title := "second",
    messages := [{ id := "2", role := .user, content := "second", timestamp := 2 }],
    lastUpdated := 2 }

/-- A session state whose active chat `"A"` sits in a two-element
collection. -/
def twoChatState : ChatState :=
  { chatHistories := [chatA, chatB], currentChatId := some "A",
    messages := chatA.messages }

theorem charVal_digitChar (d : Nat) (h : d < 10) : charVal (digitChar d) = d := by
  interval_cases d <;> rfl

theorem natToChars_foldl (n : Nat) :
    ∀ acc : Nat,
      List.foldl (fun acc c => acc * 10 + charVal c) acc (natToChars n) =
        acc * 10 ^ (natToChars n).length + n := by
  induction n using Nat.strong_induction_on with
  | _ n ih =>
    intro acc
    by_cases h : n < 10
    · rw [natToChars, dif_pos h]
      simp [charVal_digitChar n h]
    · rw [natToChars, dif_neg h]
      rw [List.foldl_append, ih (n / 10) (Nat.div_lt_self (by omega) (by omega)) acc]
      simp only [List.foldl, List.length_append, List.length_cons, List.length_nil]
      rw [charVal_digitChar (n % 10) (Nat.mod_lt n (by omega))]
      rw [pow_succ, ← mul_assoc]
      generalize acc * (10 : Nat) ^ (natToChars (n / 10)).length = m
      omega

theorem charsToNat_natToChars (n : Nat) : charsToNat (natToChars n) = n := by
  simpa [charsToNat] using natToChars_foldl n 0

theorem isoToMs_msToIso (ms : Nat) : isoToMs (msToIso ms) = ms := by
  simp [isoToMs, msToIso, charsToNat_natToChars]

/-! ### Round-trip lemmas -/

theorem lowerFields_append (a b : List (String × JsVal)) :
    lowerFields (a ++ b) = lowerFields a ++ lowerFields b := by
  induction a with
  | nil => simp [lowerFields]
  | cons kv rest ih => cases kv; simp [lowerFields, ih]

theorem reviveFields_append (a b : List (String × JsVal)) :
    reviveFields (a ++ b) = reviveFields a ++ reviveFields b := by
  induction a with
  | nil => simp [reviveFields]
  | cons kv rest ih => cases kv; simp [reviveFields, ih]

theorem lowerList_map_str (l : List String) :
    lowerList (l.map JsVal.str) = l.map JsVal.str := by
  induction l with
  | nil => simp [lowerList]
  | cons s rest ih => simp [lowerList, lower, ih]

theorem reviveList_map_str (l : List String) :
    reviveList (l.map JsVal.str) = l.map JsVal.str := by
  induction l with
  | nil => simp [reviveList]
  | cons s rest ih => simp [reviveList, revive, ih]

theorem msgFields_roundtrip (m : Message) :
    reviveFields (lowerFields (msgFields m)) = msgFields m := by
  unfold msgFields
  rw [lowerFields_append, lowerFields_append, lowerFields_append, lowerFields_append,
      reviveFields_append, reviveFields_append, reviveFields_append, reviveFields_append]
  have hid : reviveFields (lowerFields
      [("id", JsVal.str m.id), ("role", .str (roleToStr m.role)),
       ("content", .str m.content)]) =
      [("id", JsVal.str m.id), ("role", .str (roleToStr m.role)),
       ("content", .str m.content)] := by
    simp [lowerFields, lower, reviveFields, revive, reviveKey]
  have hts : reviveFields (lowerFields [("timestamp", JsVal.date m.timestamp)]) =
      [("timestamp", JsVal.date m.timestamp)] := by
    simp [lowerFields, lower, reviveFields, revive, reviveKey, jsNewDate, isoToMs_msToIso]
  have hint : reviveFields (lowerFields
      (match m.intent with
       | none => []
       | some i => [("intent", JsVal.str i)])) =
      (match m.intent with
       | none => []
       | some i => [("intent", JsVal.str i)]) := by
    cases m.intent <;> simp [lowerFields, lower, reviveFields, revive, reviveKey]
  have hconf : reviveFields (lowerFields
      (match m.confidence with
       | none => []
       | some c => [("confidence", JsVal.num c)])) =
      (match m.confidence with
       | none => []
       | some c => [("confidence", JsVal.num c)]) := by
    cases m.confidence <;> simp [lowerFields, lower, reviveFields, revive, reviveKey]
  have hsrc : reviveFields (lowerFields
      (match m.sources with
       | none => []
       | some l => [("sources", JsVal.arr (l.map .str))])) =
      (match m.sources with
       | none => []
       | some l => [("sources", JsVal.arr (l.map .str))]) := by
    cases m.sources <;>
      simp [lowerFields, lower, reviveFields, revive, reviveKey,
            lowerList_map_str, reviveList_map_str]
  rw [hid, hts, hint, hconf, hsrc]

theorem msgs_roundtrip (ms : List Message) :
    reviveList (lowerList (ms.map msgToJs)) = ms.map msgToJs := by
  induction ms with
  | nil => simp [lowerList, reviveList]
  | cons m rest ih =>
      simp only [List.map_cons, lowerList, reviveList, ih]
      simp [msgToJs, lower, revive, msgFields_roundtrip m]

theorem chatToJs_roundtrip (c : ChatHistory) :
    revive (lower (chatToJs c)) = chatToJs c := by
  simp [chatToJs, chatFields, lower, revive, lowerFields, reviveFields,
        reviveKey, jsNewDate, isoToMs_msToIso, msgs_roundtrip]

theorem chats_roundtrip (hs : List ChatHistory) :
    reviveList (lowerList (hs.map chatToJs)) = hs.map chatToJs := by
  induction hs with
  | nil => simp [lowerList, reviveList]
  | cons c rest ih =>
      simp only [List.map_cons, lowerList, reviveList, ih]
      rw [chatToJs_roundtrip c]

/-! ## Claim theorems -/

/-- C8: Serializing the histories collection to the durable store and
deserializing it back with the store's instant-reviving rules is lossless:
lowering every `Date` to its serialized string (what `JSON.stringify` does
before the platform's bijective printing) and then applying the
`timestamp`/`lastUpdated`-reviving parse yields the identical collection —
same message content, and `timestamp`/`lastUpdated` instants equal to the
originals. -/
theorem chatHistories_roundtrip_lossless (hs : List ChatHistory) :
    revive (lower (historiesToJs hs)) = historiesToJs hs := by
  simp only [historiesToJs, lower, revive]
  rw [chats_roundtrip hs]

/-- C2: With no active chat, `updateChatHistory` creates exactly one new
`ChatHistory` — title the first 50 characters of the user message, messages
the full exchange so far — inserts it at the front of the collection, and
makes its id the active-chat reference. -/
theorem updateChatHistory_no_active_creates (s : ChatState) (u a : Message)
    (now : Nat) (h : s.currentChatId = none) :
    (updateChatHistory s u a now).chatHistories =
      { id := toString now, title := u.content.take 50,
        messages := s.messages ++ [u, a], lastUpdated := now } :: s.chatHistories ∧
    (updateChatHistory s u a now).chatHistories.length = s.chatHistories.length + 1 ∧
    (updateChatHistory s u a now).currentChatId = some (toString now) := by
  refine ⟨?_, ?_, ?_⟩ <;> simp [updateChatHistory, h]

/-- Witness for C2 at a concrete empty initial state. -/
theorem updateChatHistory_no_active_creates_witness :
    (updateChatHistory (initialChatState []) sampleUser sampleAssistant 7).chatHistories =
      { id := toString 7, title := sampleUser.content.take 50,
        messages := (initialChatState []).messages ++ [sampleUser, sampleAssistant],
        lastUpdated := 7 } :: (initialChatState []).chatHistories ∧
    (updateChatHistory (initialChatState []) sampleUser sampleAssistant 7).chatHistories.length =
      (initialChatState []).chatHistories.length + 1 ∧
    (updateChatHistory (initialChatState []) sampleUser sampleAssistant 7).currentChatId =
      some (toString 7) :=
  updateChatHistory_no_active_creates (initialChatState []) sampleUser sampleAssistant 7 rfl

/-- C9: While an exchange is in flight (`isLoading`) or when the input
trims to the empty string, `sendMessage` is a complete no-op, whatever the
remote call would have returned: the state — buffer, histories, active
chat, flags — is unchanged, so a double submit cannot add duplicate user
messages. -/
theorem sendMessage_guarded_noop (s : AppState) (r : Except String ApiResponse)
    (now : Nat) (h : s.isLoading = true ∨ jsTrim s.inputValue = "") :
    sendMessage s r now = s := by
  unfold sendMessage
  rw [if_pos (h.symm.imp id id)]

/-- Witness for C9: a busy state is untouched by a second submit. -/
theorem sendMessage_guarded_noop_witness :
    sendMessage
      { inputValue := "again", isLoading := true, showToast := none,
        chat := initialChatState [] }
      (Except.error "network failure") 9 =
      { inputValue := "again", isLoading := true, showToast := none,
        chat := initialChatState [] } :=
  sendMessage_guarded_noop _ _ 9 (Or.inl rfl)

/-- C5: With an active chat that is present in the collection,
`updateChatHistory` keeps the collection's size and leaves every entry
whose id is not the active id exactly as it was; an entry carrying the
active id changes only its `messages` (to the committed exchange) and its
`lastUpdated` (to now), keeping id and title. -/
theorem updateChatHistory_active_frame (s : ChatState) (u a : Message)
    (now : Nat) (cid : String) (hcid : s.currentChatId = some cid)
    (_hmem : ∃ chat ∈ s.chatHistories, chat.id = cid) :
    (updateChatHistory s u a now).chatHistories.length = s.chatHistories.length ∧
    ∀ i (hi : i < s.chatHistories.length)
        (hi' : i < (updateChatHistory s u a now).chatHistories.length),
      ((s.chatHistories.get ⟨i, hi⟩).id ≠ cid →
        (updateChatHistory s u a now).chatHistories.get ⟨i, hi'⟩ =
          s.chatHistories.get ⟨i, hi⟩) ∧
      ((s.chatHistories.get ⟨i, hi⟩).id = cid →
        (updateChatHistory s u a now).chatHistories.get ⟨i, hi'⟩ =
          { s.chatHistories.get ⟨i, hi⟩ with
              messages := s.messages ++ [u, a], lastUpdated := now }) := by
  have hrw : updateChatHistory s u a now =
      { s with chatHistories := s.chatHistories.map (fun chat =>
          if chat.id = cid then
            { chat with messages := s.messages ++ [u, a], lastUpdated := now }
          else chat) } := by
    unfold updateChatHistory
    rw [hcid]
  rw [hrw]
  refine ⟨by simp, ?_⟩
  intro i hi hi'
  constructor
  · intro hne
    simp only [List.get_eq_getElem, List.getElem_map] at hne ⊢
    rw [if_neg hne]
  · intro heq
    simp only [List.get_eq_getElem, List.getElem_map] at heq ⊢
    rw [if_pos heq]

/-- Witness for C5 on a two-chat collection with active chat `"A"`:
size preserved, entry 0 (the target) rewritten, entry 1 untouched. -/
theorem updateChatHistory_active_frame_witness :
    (updateChatHistory twoChatState sampleUser sampleAssistant 9).chatHistories.length =
      twoChatState.chatHistories.length ∧
    (updateChatHistory twoChatState sampleUser sampleAssistant 9).chatHistories.get
        ⟨0, by decide⟩ =
      { twoChatState.chatHistories.get ⟨0, by decide⟩ with
          messages := twoChatState.messages ++ [sampleUser, sampleAssistant],
          lastUpdated := 9 } ∧
    (updateChatHistory twoChatState sampleUser sampleAssistant 9).chatHistories.get
        ⟨1, by decide⟩ =
      twoChatState.chatHistories.get ⟨1, by decide⟩ := by
  have h := updateChatHistory_active_frame twoChatState sampleUser sampleAssistant 9 "A"
    rfl ⟨chatA, by simp [twoChatState], rfl⟩
  exact ⟨h.1, (h.2 0 (by decide) (by decide)).2 (by decide),
         (h.2 1 (by decide) (by decide)).1 (by decide)⟩

/-- C7: `deleteChat chatId` removes exactly the histories carrying that
id; when that id was the active chat the buffer empties and the reference
clears (as `startNewChat`); when no history carries the id — so, by the
never-dangling invariant, the id is not the active chat either — the state
is completely unchanged. -/
theorem deleteChat_removes_exactly (s : ChatState) (chatId : String)
    (hinv : ActiveRefOk s) :
    (∀ chat, chat ∈ (deleteChat s chatId).chatHistories ↔
        chat ∈ s.chatHistories ∧ chat.id ≠ chatId) ∧
    (s.currentChatId = some chatId →
        (deleteChat s chatId).messages = [] ∧
        (deleteChat s chatId).currentChatId = none) ∧
    ((∀ chat ∈ s.chatHistories, chat.id ≠ chatId) → deleteChat s chatId = s) := by
  refine ⟨?_, ?_, ?_⟩
  · intro chat
    unfold deleteChat
    by_cases h : s.currentChatId = some chatId <;>
      simp [h, startNewChat, List.mem_filter, bne_iff_ne]
  · intro h
    unfold deleteChat
    simp [h, startNewChat]
  · intro hnone
    have hne : ¬ s.currentChatId = some chatId := by
      intro h
      obtain ⟨chat, hmem, hid⟩ := hinv chatId h
      exact hnone chat hmem hid
    unfold deleteChat
    rw [if_neg hne, List.filter_eq_self.mpr]
    intro chat hmem
    simpa [bne_iff_ne] using hnone chat hmem

/-- Witness for C7: deleting the active chat `"A"` of the two-chat state
drops exactly it, empties the buffer and clears the reference. -/
theorem deleteChat_removes_exactly_witness :
    (chatA ∈ (deleteChat twoChatState "A").chatHistories ↔
      chatA ∈ twoChatState.chatHistories ∧ chatA.id ≠ "A") ∧
    (deleteChat twoChatState "A").messages = [] ∧
    (deleteChat twoChatState "A").currentChatId = none := by
  have h := deleteChat_removes_exactly twoChatState "A"
    (by intro c hc
        refine ⟨chatA, by simp [twoChatState], ?_⟩
        have : some "A" = some c := hc
        cases this
        rfl)
  exact ⟨h.1 chatA, (h.2.1 rfl).1, (h.2.1 rfl).2⟩

theorem applyOp_preserves_activeRefOk (s : ChatState) (op : Op)
    (h : ActiveRefOk s) : ActiveRefOk (applyOp s op) := by
  cases op with
  | startNewChat =>
      intro c hc
      simp [applyOp, startNewChat] at hc
  | loadChat chatId =>
      intro c hc
      simp only [applyOp] at hc ⊢
      cases hfind : s.chatHistories.find? (fun ch => ch.id == chatId) with
      | none =>
          have hrw : loadChat s chatId = s := by
            unfold loadChat
            rw [hfind]
          rw [hrw] at hc ⊢
          exact h c hc
      | some chat =>
          have hrw : loadChat s chatId =
              { s with messages := chat.messages, currentChatId := some chatId } := by
            unfold loadChat
            rw [hfind]
          rw [hrw] at hc ⊢
          have hc' : chatId = c := by simpa using hc
          subst hc'
          exact ⟨chat, List.mem_of_find?_eq_some hfind,
                 by simpa using List.find?_some hfind⟩
  | deleteChat chatId =>
      intro c hc
      simp only [applyOp] at hc ⊢
      by_cases heq : s.currentChatId = some chatId
      · have hrw : deleteChat s chatId =
            startNewChat
              { s with chatHistories := s.chatHistories.filter (fun ch => ch.id != chatId) } := by
          simp only [deleteChat]
          rw [if_pos heq]
        rw [hrw] at hc
        simp [startNewChat] at hc
      · have hrw : deleteChat s chatId =
            { s with chatHistories := s.chatHistories.filter (fun ch => ch.id != chatId) } := by
          simp only [deleteChat]
          rw [if_neg heq]
        rw [hrw] at hc ⊢
        obtain ⟨chat, hmem, hid⟩ := h c hc
        refine ⟨chat, ?_, hid⟩
        rw [List.mem_filter]
        refine ⟨hmem, ?_⟩
        simp only [bne_iff_ne]
        intro hbad
        exact heq (by rw [hc, ← hid, hbad])
  | clearHistory =>
      intro c hc
      simp [applyOp, clearHistory] at hc
  | addMessage m =>
      intro c hc
      simp only [applyOp, addMessage] at hc ⊢
      exact h c hc
  | updateChatHistory u a now =>
      intro c hc
      simp only [applyOp] at hc ⊢
      cases hcur : s.currentChatId with
      | none =>
          have hrw : updateChatHistory s u a now =
              { s with
                  chatHistories :=
                    { id := toString now, title := u.content.take 50,
                      messages := s.messages ++ [u, a], lastUpdated := now } ::
                      s.chatHistories,
                  currentChatId := some (toString now) } := by
            unfold updateChatHistory
            rw [hcur]
          rw [hrw] at hc ⊢
          have hc' : toString now = c := by simpa using hc
          exact ⟨_, List.mem_cons_self _ _, hc'⟩
      | some cid =>
          have hrw : updateChatHistory s u a now =
              { chatHistories := s.chatHistories.map (fun chat =>
                  if chat.id = cid then
                    { chat with messages := s.messages ++ [u, a], lastUpdated := now }
                  else chat),
                currentChatId := some cid,
                messages := s.messages } := by
            unfold updateChatHistory
            rw [hcur]
          rw [hrw] at hc ⊢
          have hc' : cid = c := by simpa using hc
          obtain ⟨chat, hmem, hid⟩ := h c (by rw [hcur, hc'])
          refine ⟨if chat.id = cid then
                    { chat with messages := s.messages ++ [u, a], lastUpdated := now }
                  else chat,
                  List.mem_map_of_mem _ hmem, ?_⟩
          by_cases hch : chat.id = cid
          · rw [if_pos hch]
            exact hid
          · rw [if_neg hch]
            exact hid

theorem applyOps_preserves_activeRefOk (ops : List Op) :
    ∀ s : ChatState, ActiveRefOk s → ActiveRefOk (applyOps s ops) := by
  induction ops with
  | nil => intro s h; exact h
  | cons op rest ih =>
      intro s h
      exact ih (applyOp s op) (applyOp_preserves_activeRefOk s op h)

/-- C10: In every state reachable from an initial state (any restored
collection, no active chat, empty buffer) by a sequence of session-store
operations, a set active-chat reference always names a history in the
collection — it is never dangling. -/
theorem currentChatId_never_dangling (hs : List ChatHistory) (ops : List Op)
    (c : String)
    (h : (applyOps (initialChatState hs) ops).currentChatId = some c) :
    ∃ chat ∈ (applyOps (initialChatState hs) ops).chatHistories, chat.id = c := by
  have base : ActiveRefOk (initialChatState hs) := by
    intro c hc
    simp [initialChatState] at hc
  exact applyOps_preserves_activeRefOk ops (initialChatState hs) base c h

/-- Witness for C10: after one commit on an empty store the active id `"7"`
names the fresh history. -/
theorem currentChatId_never_dangling_witness :
    ∃ chat ∈ (applyOps (initialChatState [])
        [Op.updateChatHistory sampleUser sampleAssistant 7]).chatHistories,
      chat.id = "7" :=
  currentChatId_never_dangling [] [Op.updateChatHistory sampleUser sampleAssistant 7]
    "7" (by decide)

/-- C1 (amended): When the remote call fails, the failure branch rolls
the transient buffer back exactly to its pre-attempt state and touches no
persisted state — provided the optimistic message's time-derived id does
not collide with the id of a message already in the buffer.  (The rollback
is a filter on that id, so on a collision it also deletes the older
message; see the counterexample.) -/
theorem sendMessage_failure_exact_rollback (s : AppState) (err : String)
    (now : Nat) (hinput : ¬ jsTrim s.inputValue = "") (hbusy : s.isLoading = false)
    (hfresh : ∀ m ∈ s.chat.messages, m.id ≠ toString now) :
    (sendMessage s (.error err) now).chat.messages = s.chat.messages ∧
    (sendMessage s (.error err) now).chat.chatHistories = s.chat.chatHistories ∧
    (sendMessage s (.error err) now).chat.currentChatId = s.chat.currentChatId := by
  unfold sendMessage
  rw [if_neg (by simp [hinput, hbusy])]
  refine ⟨?_, rfl, rfl⟩
  show List.filter _ ((addMessage s.chat _).messages) = s.chat.messages
  simp only [addMessage]
  rw [List.filter_append]
  have h1 : s.chat.messages.filter
      (fun m => m.id != toString now) = s.chat.messages :=
    List.filter_eq_self.mpr (fun m hm => by simpa [bne_iff_ne] using hfresh m hm)
  rw [h1]
  simp

/-- Witness for C1 at a concrete state whose buffered message id `"1"`
differs from the fresh id `"5"`. -/
theorem sendMessage_failure_exact_rollback_witness :
    (sendMessage
        { inputValue := "retry", isLoading := false, showToast := none,
          chat := { chatHistories := [chatA], currentChatId := some "A",
                    messages := [{ id := "1", role := .user, content := "first",
                                   timestamp := 1 }] } }
        (.error "network failure") 5).chat.messages =
      [{ id := "1", role := .user, content := "first", timestamp := 1 }] ∧
    (sendMessage
        { inputValue := "retry", isLoading := false, showToast := none,
          chat := { chatHistories := [chatA], currentChatId := some "A",
                    messages := [{ id := "1", role := .user, content := "first",
                                   timestamp := 1 }] } }
        (.error "network failure") 5).chat.chatHistories = [chatA] ∧
    (sendMessage
        { inputValue := "retry", isLoading := false, showToast := none,
          chat := { chatHistories := [chatA], currentChatId := some "A",
                    messages := [{ id := "1", role := .user, content := "first",
                                   timestamp := 1 }] } }
        (.error "network failure") 5).chat.currentChatId = some "A" :=
  sendMessage_failure_exact_rollback _ "network failure" 5
    (by decide) rfl (by decide)

/-- An app state whose buffer already holds a message with id `"5"` — the
id `sendMessage` will derive at `now = 5` (time-derived ids can repeat,
e.g. the previous exchange's assistant id `t + 1` at a send one ms
later). -/
def clashState : AppState :=
  { inputValue := "retry", isLoading := false, showToast := none,
    chat := { chatHistories := [], currentChatId := none,
              messages := [{ id := "5", role := .assistant,
                             content := "earlier reply", timestamp := 4 }] } }

/-- Counterexample to C1 as stated: from `clashState` (non-empty buffer),
a failing call leaves an empty buffer, not the pre-attempt one — the
rollback filter also removed the older message sharing the id. -/
theorem sendMessage_failure_rollback_cex :
    (sendMessage clashState (.error "network failure") 5).chat.messages = [] ∧
    clashState.chat.messages ≠ [] := by
  constructor
  · rfl
  · decide

/-- C3 (amended): A missing (or falsy-empty) stored value yields the
empty histories collection; but a stored value that is not valid JSON makes
`JSON.parse` throw out of the state initializer — the application render
fails rather than yielding an empty collection. -/
theorem initChatHistories_missing_empty_corrupt_throws (s : String)
    (hne : s ≠ "") (hcorrupt : jsonParse s = .error ()) :
    initChatHistories none = .ok (.arr []) ∧
    initChatHistories (some s) = .error () := by
  refine ⟨rfl, ?_⟩
  simp [initChatHistories, hne, hcorrupt, Except.map]

/-- Witness for C3 on the concrete corrupt store `"oops"`. -/
theorem initChatHistories_missing_empty_corrupt_throws_witness :
    initChatHistories none = .ok (.arr []) ∧
    initChatHistories (some "oops") = .error () :=
  initChatHistories_missing_empty_corrupt_throws "oops" (by decide) rfl

/-- Counterexample to C3 as stated: the corrupt stored value `"oops"` does
not deserialize to the empty collection — the initializer fails. -/
theorem initChatHistories_corrupt_cex :
    initChatHistories (some "oops") = .error () ∧
    (Except.error () : Except Unit JsVal) ≠ .ok (.arr []) := by
  refine ⟨rfl, ?_⟩
  intro h
  exact Except.noConfusion h

/-- C4 (amended): On a successful (2xx, valid JSON) body, the caller
gets a fully-populated response: absent fields take their defaults
(`intent` → `"general_query"`, `confidence` → `0`, `response` → the
apology string, `sources` → `[]`, `action_invoked` → none, `timestamp` →
the current instant), and present fields are passed through when truthy —
a present falsy value (empty string, zero, `null`) also selects the
default, since the normalization uses `||`.  (`confidence` and `sources`
pass through for every present value: `0` coincides with the default, and
an array is always truthy.) -/
theorem sendQueryToAPI_success_normalization (resp : HttpResponse)
    (b : RawBody) (nowIso : String) (hok : resp.ok = true)
    (hbody : resp.jsonBody = .ok b) :
    ∃ r : ApiResponse, sendQueryToAPI resp nowIso = .ok r ∧
      ((b.intent = none ∨ b.intent = some "") → r.intent = "general_query") ∧
      (∀ v, b.intent = some v → v ≠ "" → r.intent = v) ∧
      (b.confidence = none → r.confidence = 0) ∧
      (∀ v, b.confidence = some v → r.confidence = v) ∧
      ((b.response = none ∨ b.response = some "") →
        r.response = "Sorry, I could not process your request.") ∧
      (∀ v, b.response = some v → v ≠ "" → r.response = v) ∧
      (b.sources = none → r.sources = []) ∧
      (∀ v, b.sources = some v → r.sources = v) ∧
      ((b.action_invoked = none ∨ b.action_invoked = some none ∨
          b.action_invoked = some (some "")) → r.action_invoked = none) ∧
      (∀ v, b.action_invoked = some (some v) → v ≠ "" →
        r.action_invoked = some v) ∧
      ((b.timestamp = none ∨ b.timestamp = some "") → r.timestamp = nowIso) ∧
      (∀ v, b.timestamp = some v → v ≠ "" → r.timestamp = v) := by
  refine ⟨{ intent := jsOrStr b.intent "general_query",
            confidence := jsOrInt b.confidence 0,
            response := jsOrStr b.response "Sorry, I could not process your request.",
            sources := jsOrList b.sources [],
            action_invoked := jsOrNull b.action_invoked,
            timestamp := jsOrStr b.timestamp nowIso },
          ?_, ?_, ?_, ?_, ?_, ?_, ?_, ?_, ?_, ?_, ?_, ?_, ?_⟩
  · simp [sendQueryToAPI, hok, hbody]
  · rintro (h | h) <;> simp [jsOrStr, h]
  · intro v hv hne
    simp [jsOrStr, hv, hne]
  · intro h
    simp [jsOrInt, h]
  · intro v hv
    by_cases h0 : v = 0 <;> simp [jsOrInt, hv, h0]
  · rintro (h | h) <;> simp [jsOrStr, h]
  · intro v hv hne
    simp [jsOrStr, hv, hne]
  · intro h
    simp [jsOrList, h]
  · intro v hv
    simp [jsOrList, hv]
  · rintro (h | h | h) <;> simp [jsOrNull, h]
  · intro v hv hne
    simp [jsOrNull, hv, hne]
  · rintro (h | h) <;> simp [jsOrStr, h]
  · intro v hv hne
    simp [jsOrStr, hv, hne]

/-- A fully-populated truthy response body. -/
def richBody : RawBody :=
  { intent := some "billing", confidence := some 1, response := some "done",
    sources := some ["kb-1"], action_invoked := some (some "refund"),
    timestamp := some "T1" }

/-- Witness for C4: every truthy field of `richBody` passes through. -/
theorem sendQueryToAPI_success_normalization_witness :
    ∃ r : ApiResponse,
      sendQueryToAPI { ok := true, status := 200, jsonBody := .ok richBody } "T0" =
        .ok r ∧
      r.intent = "billing" ∧ r.confidence = 1 ∧ r.response = "done" ∧
      r.sources = ["kb-1"] ∧ r.action_invoked = some "refund" ∧
      r.timestamp = "T1" := by
  obtain ⟨r, hr, _, hint, _, hconf, _, hresp, _, hsrc, _, hact, _, hts⟩ :=
    sendQueryToAPI_success_normalization
      { ok := true, status := 200, jsonBody := .ok richBody } richBody "T0" rfl rfl
  exact ⟨r, hr, hint "billing" rfl (by decide), hconf 1 rfl,
         hresp "done" rfl (by decide), hsrc ["kb-1"] rfl,
         hact "refund" rfl (by decide), hts "T1" rfl (by decide)⟩

/-- A body whose `intent` field is present but holds the empty string. -/
def emptyIntentBody : RawBody :=
  { intent := some "", response := some "Hi there!" }

/-- Counterexample to C4 as stated: `intent` is present (as `""`) yet is
not passed through — `"" || 'general_query'` takes the default. -/
theorem sendQueryToAPI_present_intent_cex :
    emptyIntentBody.intent = some "" ∧
    sendQueryToAPI { ok := true, status := 200, jsonBody := .ok emptyIntentBody }
        "T0" =
      .ok { intent := "general_query", confidence := 0, response := "Hi there!",
            sources := [], action_invoked := none, timestamp := "T0" } ∧
    "general_query" ≠ "" := by
  refine ⟨rfl, rfl, by decide⟩

/-- C6 (amended): On a non-success status `sendQueryToAPI` always
throws, never returns: the error message is the server's `detail` when the
error body holds a non-empty one; otherwise — `detail` absent, `detail`
falsy-empty, or unparseable error body (replaced by `{}`) — it is the
generic `"API request failed: <status>"`. -/
theorem sendQueryToAPI_error_message (resp : HttpResponse) (nowIso : String)
    (hok : resp.ok = false) :
    (∀ b v, resp.jsonBody = .ok b → b.detail = some v → v ≠ "" →
      sendQueryToAPI resp nowIso = .error v) ∧
    (∀ b, resp.jsonBody = .ok b → (b.detail = none ∨ b.detail = some "") →
      sendQueryToAPI resp nowIso =
        .error ("API request failed: " ++ toString resp.status)) ∧
    (∀ e, resp.jsonBody = .error e →
      sendQueryToAPI resp nowIso =
        .error ("API request failed: " ++ toString resp.status)) ∧
    (∀ r, sendQueryToAPI resp nowIso ≠ .ok r) := by
  refine ⟨?_, ?_, ?_, ?_⟩
  · intro b v hb hv hne
    simp [sendQueryToAPI, hok, hb, jsOrStr, hv, hne]
  · intro b hb hd
    rcases hd with h | h <;> simp [sendQueryToAPI, hok, hb, jsOrStr, h]
  · intro e he
    simp [sendQueryToAPI, hok, he, jsOrStr]
  · intro r
    simp [sendQueryToAPI, hok]

/-- An error response carrying a server-provided detail message. -/
def detailResp : HttpResponse :=
  { ok := false, status := 422, jsonBody := .ok { detail := some "Invalid user" } }

/-- Witness for C6: the non-empty server detail becomes the thrown
message; a plain network-level 500 with unparseable body gets the generic
status-coded message. -/
theorem sendQueryToAPI_error_message_witness :
    sendQueryToAPI detailResp "T0" = .error "Invalid user" ∧
    sendQueryToAPI { ok := false, status := 500, jsonBody := .error () } "T0" =
      .error "API request failed: 500" :=
  ⟨(sendQueryToAPI_error_message detailResp "T0" rfl).1
      { detail := some "Invalid user" } "Invalid user" rfl rfl (by decide),
   (sendQueryToAPI_error_message
      { ok := false, status := 500, jsonBody := .error () } "T0" rfl).2.2.1 () rfl⟩

/-- An error body whose `detail` field is present but empty. -/
def emptyDetailResp : HttpResponse :=
  { ok := false, status := 500, jsonBody := .ok { detail := some "" } }

/-- Counterexample to C6 as stated: the error body contains a `detail`
field (the empty string), yet the thrown message is the generic one, not
that detail — `'' || generic` takes the generic branch. -/
theorem sendQueryToAPI_empty_detail_cex :
    (match emptyDetailResp.jsonBody with
      | .ok b => b.detail
      | .error _ => none) = some "" ∧
    sendQueryToAPI emptyDetailResp "T0" = .error "API request failed: 500" ∧
    "API request failed: 500" ≠ "" := by
  refine ⟨rfl, rfl, by decide⟩

end ClientSupport
